import Mathlib

/-!
# Verification of sleap instance-cropping and inference utilities

Shallow embedding of the functions in `sleap/nn/data/instance_cropping.py` and
`sleap/nn/inference.py`. Machine floating-point arithmetic is modelled over `Rat`
(exact arithmetic); tensors are modelled as (nested) lists; Python exceptions are
modelled with `Except`.
-/

namespace Sleap

/-- Python exceptions relevant to the embedded functions. -/
inductive PyError where
  | nameError (name : String) : PyError
  | valueError (msg : List String) : PyError
  | stopIteration : PyError
  | otherError : PyError
deriving DecidableEq, Repr

/-! ## `safely_generate` (sleap/nn/inference.py, lines 83-114)

The dataset iterator is modelled as the finite sequence of its productions: each
`next(ds_iter)` call either succeeds with a record (`Except.ok`) or raises an
exception (`Except.error`); after the list is exhausted the iterator raises
`StopIteration`, which ends the `while not done` loop.

The loop body yields the record on success; on any other exception it logs
`"ERROR in sample index {i}"` and continues; the `finally` block increments `i`
whenever the production was not `StopIteration`. We return the pair
(yielded records, logged error indices); the generator itself never re-raises,
which the embedding reflects by being a total function. The `progress` timing
output does not affect the yielded records or the error log and is omitted. -/

def safelyGenerateGo {E A : Type} : List (Except E A) → Nat → List A × List Nat
  | [], _ => ([], [])
  | Except.ok a :: rest, i =>
      let r := safelyGenerateGo rest (i + 1)
      (a :: r.1, r.2)
  | Except.error _ :: rest, i =>
      let r := safelyGenerateGo rest (i + 1)
      (r.1, i :: r.2)

def safely_generate {E A : Type} (ds : List (Except E A)) : List A × List Nat :=
  safelyGenerateGo ds 0

/-! ## `group_examples_iter` (sleap/nn/inference.py, lines 58-80)

Examples are grouped by the key `(video_ind, frame_ind)`; we abstract the key
extraction as a function `key : A → K`. In the Python code `last_key` starts as
`None`, which is unequal to every key tuple, so the first example always starts
a fresh batch without a yield (the initial `batch` is empty); afterwards
`last_key` is always the key of the examples accumulated in `batch`, and the
final `yield key, batch` fires exactly when `batch` is nonempty. The embedding
makes the first step explicit at top level and keeps the loop in `groupGo`. -/

def groupGo {A K : Type} [DecidableEq K] (key : A → K) :
    List A → K → List A → List (K × List A)
  | [], lastKey, batch =>
      -- end of iteration: `if batch: yield key, batch`
      if batch.isEmpty then [] else [(lastKey, batch)]
  | x :: rest, lastKey, batch =>
      if key x = lastKey then
        -- `else: batch.append(example)`
        groupGo key rest lastKey (batch ++ [x])
      else
        -- `if last_key != key: if batch: yield last_key, batch; ...`
        (if batch.isEmpty then [] else [(lastKey, batch)]) ++
          groupGo key rest (key x) [x]

def group_examples_iter {A K : Type} [DecidableEq K] (key : A → K) :
    List A → List (K × List A)
  | [] => []
  | x :: rest => groupGo key rest (key x) [x]

/-! ## `find_instance_crop_size` (sleap/nn/data/instance_cropping.py, lines 10-22)

The module header of instance_cropping.py is
`import tensorflow as tf; import attr; from typing import Optional, List, Text;`
`import sleap; from sleap.nn.config import InstanceCroppingConfig` — the name
`np` is never bound at module level, so the body's references to `np` raise
`NameError` when executed. We record the module-level bound names explicitly
and model the function as a name lookup followed by the body it would execute
if the lookup succeeded. -/

/-- Names bound at module level in instance_cropping.py (imports and the
module's own defs). `np` is absent: numpy is never imported. -/
def instance_cropping_module_names : List String :=
  ["tf", "attr", "Optional", "List", "Text", "sleap", "InstanceCroppingConfig",
   "find_instance_crop_size", "normalize_bboxes", "unnormalize_bboxes",
   "make_centered_bboxes", "crop_bboxes", "InstanceCropper"]

/-- A user-labeled instance; `points_array` is the (n_points, 2) array of
(x, y) point coordinates (column 0 is x, column 1 is y). -/
structure SleapInstance where
  points_array : List (Rat × Rat)
deriving DecidableEq, Repr

/-- A label set; only the `user_instances` attribute is consumed by
`find_instance_crop_size`. -/
structure Labels where
  user_instances : List SleapInstance
deriving DecidableEq, Repr

/-- `np.nanmax` over a 1-D array without NaNs: the maximum element. (numpy
raises on an empty array; the claims only evaluate it on nonempty point
lists.) -/
def nanmax : List Rat → Rat
  | [] => 0
  | x :: xs => xs.foldl max x

/-- `np.nanmin` over a 1-D array without NaNs: the minimum element. -/
def nanmin : List Rat → Rat
  | [] => 0
  | x :: xs => xs.foldl min x

/-- The computation the body of `find_instance_crop_size` would perform if the
name `np` resolved: fold the per-axis point extents of every user instance into
`max_length` (starting from 0.0), add the padding, then take
`ceil(max_length / maximum_stride) * maximum_stride` and truncate to int (the
value is already integral). -/
def find_instance_crop_size_body (labels : Labels) (padding : Nat)
    (maximum_stride : Nat) : Int :=
  let max_length : Rat := labels.user_instances.foldl
    (fun acc inst =>
      let xs := inst.points_array.map Prod.fst
      let ys := inst.points_array.map Prod.snd
      max (max acc (nanmax xs - nanmin xs)) (nanmax ys - nanmin ys)) 0
  let padded := max_length + (padding : Rat)
  Int.ceil (padded / (maximum_stride : Rat)) * (maximum_stride : Int)

/-- `find_instance_crop_size` (instance_cropping.py, lines 10-22): the body
references the module-level name `np` (in `np.maximum`/`np.nanmax`/`np.nanmin`
inside the loop, and unconditionally in `np.math.ceil` on line 20), so its
execution first resolves `np` in the module namespace; the lookup fails and
Python raises `NameError`. -/
def find_instance_crop_size (labels : Labels) (padding : Nat)
    (maximum_stride : Nat) : Except PyError Int :=
  if "np" ∈ instance_cropping_module_names then
    Except.ok (find_instance_crop_size_body labels padding maximum_stride)
  else
    Except.error (PyError.nameError "np")

/-- The maximal instance extent, written as the spec describes it: the maximum
over all user instances of the larger of the x-extent and the y-extent of the
instance's points. -/
def maxInstanceExtent (labels : Labels) : Rat :=
  (labels.user_instances.map (fun inst =>
    max (nanmax (inst.points_array.map Prod.fst)
          - nanmin (inst.points_array.map Prod.fst))
        (nanmax (inst.points_array.map Prod.snd)
          - nanmin (inst.points_array.map Prod.snd)))).foldl max 0

/-! ## Bounding boxes (sleap/nn/data/instance_cropping.py)

A bounding box is the 4-vector (y1, x1, y2, x2) along the last tensor axis;
a batch of boxes (shape (n_bboxes, 4)) is a list of boxes. Coordinates are
tf.float32, modelled over `Rat`. -/

structure Box4 where
  y1 : Rat
  x1 : Rat
  y2 : Rat
  x2 : Rat
deriving DecidableEq, Repr

/-- `normalize_bboxes` (instance_cropping.py, lines 25-57): elementwise division
of each box by the factor `[image_height, image_width, image_height,
image_width] - 1`. -/
def normalize_bboxes (bboxes : List Box4) (image_height image_width : Nat) :
    List Box4 :=
  bboxes.map fun b =>
    { y1 := b.y1 / ((image_height : Rat) - 1)
      x1 := b.x1 / ((image_width : Rat) - 1)
      y2 := b.y2 / ((image_height : Rat) - 1)
      x2 := b.x2 / ((image_width : Rat) - 1) }

/-- `unnormalize_bboxes` (instance_cropping.py, lines 60-88): elementwise
multiplication of each box by the same factor. -/
def unnormalize_bboxes (normalized_bboxes : List Box4)
    (image_height image_width : Nat) : List Box4 :=
  normalized_bboxes.map fun b =>
    { y1 := b.y1 * ((image_height : Rat) - 1)
      x1 := b.x1 * ((image_width : Rat) - 1)
      y2 := b.y2 * ((image_height : Rat) - 1)
      x2 := b.x2 * ((image_width : Rat) - 1) }

/-- `make_centered_bboxes` (instance_cropping.py, lines 91-133): each centroid
is an (x, y) pair; the result gathers (y, x, y, x) and adds the offset
`[-box_height + 1, -box_width + 1, box_height - 1, box_width - 1] * 0.5`. -/
def make_centered_bboxes (centroids : List (Rat × Rat))
    (box_height box_width : Nat) : List Box4 :=
  centroids.map fun c =>
    { y1 := c.2 + (-(box_height : Rat) + 1) * (1 / 2)
      x1 := c.1 + (-(box_width : Rat) + 1) * (1 / 2)
      y2 := c.2 + ((box_height : Rat) - 1) * (1 / 2)
      x2 := c.1 + ((box_width : Rat) - 1) * (1 / 2) }

/-! ## `crop_bboxes` (sleap/nn/data/instance_cropping.py, lines 136-188)

An image tensor of shape (height, width, channels) is modelled one channel at
a time as its list of pixel rows (`tf.image.crop_and_resize` treats channels
independently), together with its dtype. Pixel values are exact `Rat`s. -/

/-- Tensorflow dtypes relevant here, with the value conversion `tf.cast`
applies when casting a float tensor to that dtype (float-to-int casts truncate
toward zero; unsigned wrap-around dtypes are not modelled). -/
inductive DType where
  | float32
  | float64
  | int32
  | int64
deriving DecidableEq, Repr

/-- Truncation toward zero, the C-style float-to-int conversion. -/
def ratTrunc (q : Rat) : Int :=
  if 0 ≤ q then Int.floor q else Int.ceil q

/-- The value transformation of `tf.cast` from float to the given dtype. -/
def DType.castValue : DType → Rat → Rat
  | DType.float32, q => q
  | DType.float64, q => q
  | DType.int32, q => ((ratTrunc q : Int) : Rat)
  | DType.int64, q => ((ratTrunc q : Int) : Rat)

/-- A single-channel image tensor: rows of pixel values plus the dtype. -/
structure ImageT where
  rows : List (List Rat)
  dtype : DType
deriving DecidableEq, Repr

/-- `tf.shape(image)[0]`. -/
def ImageT.height (image : ImageT) : Nat := image.rows.length

/-- `tf.shape(image)[1]` (rows of a tensor all have the same length). -/
def ImageT.width (image : ImageT) : Nat := (image.rows.headD []).length

/-- Pixel lookup `image[r, c]` (in-range for every access the crop kernel
performs after its bounds check). -/
def pixel (rows : List (List Rat)) (r c : Nat) : Rat :=
  (rows.getD r []).getD c 0

/-- `tf.math.round`: round half to even (banker's rounding), as numpy/TF do. -/
def roundHalfEven (q : Rat) : Int :=
  let f := Int.floor q
  let d := q - (f : Rat)
  if d < 1 / 2 then f
  else if 1 / 2 < d then f + 1
  else if f % 2 = 0 then f else f + 1

/-- One bilinear sample of the `CropAndResize` kernel at continuous image
coordinates (y, x): outside [0, H-1] x [0, W-1] the extrapolation value 0 is
produced; inside, the four neighbours at floor/ceil are lerped. -/
def bilinearSample (rows : List (List Rat)) (H W : Nat) (y x : Rat) : Rat :=
  if y < 0 ∨ ((H : Rat) - 1) < y ∨ x < 0 ∨ ((W : Rat) - 1) < x then 0
  else
    let yTop := Int.floor y
    let yBot := Int.ceil y
    let yLerp := y - (yTop : Rat)
    let xLeft := Int.floor x
    let xRight := Int.ceil x
    let xLerp := x - (xLeft : Rat)
    let topLeft := pixel rows yTop.toNat xLeft.toNat
    let topRight := pixel rows yTop.toNat xRight.toNat
    let botLeft := pixel rows yBot.toNat xLeft.toNat
    let botRight := pixel rows yBot.toNat xRight.toNat
    let top := topLeft + (topRight - topLeft) * xLerp
    let bot := botLeft + (botRight - botLeft) * xLerp
    top + (bot - top) * yLerp

/-- `tf.image.crop_and_resize` (bilinear, extrapolation value 0) on a single
image: for each normalized box, a (crop_h, crop_w) grid of bilinear samples at
`in_y = y1*(H-1) + i*(y2-y1)*(H-1)/(crop_h-1)` (and the midpoint when the crop
dimension is 1), likewise for x. -/
def crop_and_resize (rows : List (List Rat)) (H W : Nat) (boxes : List Box4)
    (crop_h crop_w : Nat) : List (List (List Rat)) :=
  boxes.map fun b =>
    (List.range crop_h).map fun (i : Nat) =>
      (List.range crop_w).map fun (j : Nat) =>
        let in_y :=
          if 1 < crop_h then
            b.y1 * ((H : Rat) - 1)
              + ((i : Nat) : Rat) * ((b.y2 - b.y1) * ((H : Rat) - 1))
                / ((crop_h : Rat) - 1)
          else (1 / 2) * (b.y1 + b.y2) * ((H : Rat) - 1)
        let in_x :=
          if 1 < crop_w then
            b.x1 * ((W : Rat) - 1)
              + ((j : Nat) : Rat) * ((b.x2 - b.x1) * ((W : Rat) - 1))
                / ((crop_w : Rat) - 1)
          else (1 / 2) * (b.x1 + b.x2) * ((W : Rat) - 1)
        bilinearSample rows H W in_y in_x

/-- The batch of crops `crop_bboxes` returns, with its dtype. -/
structure CropsT where
  crops : List (List (List Rat))
  dtype : DType
deriving DecidableEq, Repr

/-- `crop_bboxes` (instance_cropping.py, lines 136-188): the crop size is
`tf.math.round` of (y2 - y1 + 1, x2 - x1 + 1) of the FIRST box of the batch
(`tf.gather_nd(bboxes, [[0,0],[0,1]])` / `[[0,2],[0,3]]` index box 0 only);
the boxes are normalized by the image shape and handed to
`tf.image.crop_and_resize`, and the result is cast back to the image dtype.
(`tf.gather_nd` raises on an empty batch and TF rejects nonpositive crop
sizes; `headD`/`Int.toNat` stand in for those cases, which the claims avoid.) -/
def crop_bboxes (image : ImageT) (bboxes : List Box4) : CropsT :=
  let b0 := bboxes.headD ⟨0, 0, 0, 0⟩
  let crop_h := (roundHalfEven (b0.y2 - b0.y1 + 1)).toNat
  let crop_w := (roundHalfEven (b0.x2 - b0.x1 + 1)).toNat
  let normalized := normalize_bboxes bboxes image.height image.width
  let raw := crop_and_resize image.rows image.height image.width normalized
    crop_h crop_w
  { crops := raw.map fun c => c.map fun r => r.map image.dtype.castValue
    dtype := image.dtype }

/-! ## `InstanceCropper` (sleap/nn/data/instance_cropping.py, lines 191-381)

A dataset is a finite list of frame-level examples; an example is a dict with
the keys "image", "instances", "centroids" plus arbitrary further keys,
modelled as an `extras` association list with values of a type parameter `V`
(tf.data requires every element of a dataset to have the same key structure).
-/

structure InstanceCropper where
  crop_width : Nat
  crop_height : Nat
  keep_full_image : Bool := false
deriving DecidableEq, Repr

/-- A frame-level input example for `InstanceCropper.transform_dataset`. -/
structure FrameExample (V : Type) where
  image : ImageT
  instances : List (List (Rat × Rat))
  centroids : List (Rat × Rat)
  extras : List (String × V)
deriving DecidableEq, Repr

/-- `InstanceCropper.input_keys`: the keys incoming elements are expected to
have. -/
def InstanceCropper.input_keys : List String := ["image", "instances", "centroids"]

/-- An instance-level output example of `InstanceCropper.transform_dataset`;
`image` holds the full input image when `keep_full_image` is set, and `extras`
holds the replicated additional keys. -/
structure InstanceExample (V : Type) where
  instance_image : List (List Rat)
  bbox : Box4
  center_instance : List (Rat × Rat)
  center_instance_ind : Nat
  all_instances : List (List (Rat × Rat))
  centroid : Rat × Rat
  full_image_height : Nat
  full_image_width : Nat
  image : Option (List (List Rat))
  extras : List (String × V)
deriving DecidableEq, Repr

/-- The local `crop_instances` mapping function followed by the `unbatch`:
each slice `i` of the batched `instances_data` dict becomes one
instance-level example. (`tf.gather_nd` on `[i, i]` raises when the frame has
fewer instances than centroids; `getD` stands in for that case, which the
claims avoid by requiring equally many instances and centroids.) -/
def cropInstances {V : Type} (ic : InstanceCropper) (keys_to_expand : List String)
    (frame_data : FrameExample V) : List (InstanceExample V) :=
  let bboxes := make_centered_bboxes frame_data.centroids ic.crop_height ic.crop_width
  let instance_images := crop_bboxes frame_data.image bboxes
  let bboxes_x1y1 := bboxes.map fun b => (b.x1, b.y1)
  let n_instances := bboxes.length
  let all_instances_rows := (List.range n_instances).map fun (i : Nat) =>
    let off := bboxes_x1y1.getD i (0, 0)
    frame_data.instances.map fun inst => inst.map fun p => (p.1 - off.1, p.2 - off.2)
  let center_instances := (List.range n_instances).map fun (i : Nat) =>
    (all_instances_rows.getD i []).getD i []
  (List.range n_instances).map fun (i : Nat) =>
    { instance_image := instance_images.crops.getD i []
      bbox := bboxes.getD i ⟨0, 0, 0, 0⟩
      center_instance := center_instances.getD i []
      center_instance_ind := i
      all_instances := all_instances_rows.getD i []
      centroid := frame_data.centroids.getD i (0, 0)
      full_image_height := frame_data.image.height
      full_image_width := frame_data.image.width
      image := if ic.keep_full_image then some frame_data.image.rows else none
      extras := frame_data.extras.filter fun kv => keys_to_expand.contains kv.1 }

/-- `InstanceCropper.transform_dataset` (instance_cropping.py, lines 262-381):
draws a test example from the input dataset (`next(iter(input_ds))` raises
`StopIteration` on an empty dataset, modelled as `none`), collects the keys to
replicate (every key of the test example not among the `input_keys`, plus
"image" when `keep_full_image` is set — the latter is carried by the dedicated
`image` field of the output), maps `crop_instances` over the dataset and
unbatches the result. -/
def InstanceCropper.transform_dataset {V : Type} (ic : InstanceCropper)
    (input_ds : List (FrameExample V)) : Option (List (InstanceExample V)) :=
  match input_ds with
  | [] => none
  | test_example :: _ =>
      let keys_to_expand := (test_example.extras.map Prod.fst).filter
        fun k => ! InstanceCropper.input_keys.contains k
      some (input_ds.flatMap (cropInstances ic keys_to_expand))

/-! ## `make_predictor_from_cli` (sleap/nn/inference.py, lines 875-923)

Each `--model` argument contributes a pair (head key, model path): the head
key is what `cfg.model.heads.which_oneof_attrib_name()` returns for the loaded
config, and the path is the (possibly dirname-stripped) model path. The pairs
fill the `trained_model_paths` dict in order, later pairs with an equal key
overwriting the stored path. -/

/-- `d[k] = v` on an insertion-ordered dict modelled as an association list. -/
def dictInsert (d : List (String × String)) (k v : String) :
    List (String × String) :=
  if d.any (fun kv => kv.1 == k) then
    d.map fun kv => if kv.1 == k then (k, v) else kv
  else d ++ [(k, v)]

/-- `k in d`. -/
def dictContains (d : List (String × String)) (k : String) : Bool :=
  d.any fun kv => kv.1 == k

/-- `d[k]` (the claims only read keys that are present). -/
def dictGet (d : List (String × String)) (k : String) : String :=
  (((d.find? fun kv => kv.1 == k).map Prod.snd)).getD ""

/-- The predictor object `make_predictor_from_cli` constructs (tracker
attachment does not affect which variant is chosen and is omitted). -/
inductive Predictor where
  | bottomup (model_path : String) : Predictor
  | single_instance (confmap_model_path : String) : Predictor
  | topdown (centroid_model_path confmap_model_path : String) : Predictor
deriving DecidableEq, Repr

/-- `make_predictor_from_cli` (inference.py, lines 875-923): build the
`trained_model_paths` dict from the loaded models, then pick
`BottomupPredictor` when a "multi_instance" head is present, else
`SingleInstancePredictor` for "single_instance", else `TopdownPredictor` when
both "centroid" and "centered_instance" are present, else raise `ValueError`
naming the dict's keys. -/
def make_predictor_from_cli (models : List (String × String)) :
    Except PyError Predictor :=
  let trained_model_paths :=
    models.foldl (fun d kv => dictInsert d kv.1 kv.2) []
  if dictContains trained_model_paths "multi_instance" then
    Except.ok (Predictor.bottomup (dictGet trained_model_paths "multi_instance"))
  else if dictContains trained_model_paths "single_instance" then
    Except.ok (Predictor.single_instance
      (dictGet trained_model_paths "single_instance"))
  else if dictContains trained_model_paths "centroid"
      && dictContains trained_model_paths "centered_instance" then
    Except.ok (Predictor.topdown (dictGet trained_model_paths "centroid")
      (dictGet trained_model_paths "centered_instance"))
  else
    Except.error (PyError.valueError (trained_model_paths.map Prod.fst))

/-! ### Lemmas about `safely_generate` -/

theorem sgGo_fst {E A : Type} :
    ∀ (ds : List (Except E A)) (i : Nat),
      (safelyGenerateGo ds i).1 = ds.filterMap Except.toOption
  | [], _ => rfl
  | Except.ok a :: rest, i => by
      simp [safelyGenerateGo, List.filterMap_cons, Except.toOption, sgGo_fst rest (i + 1)]
  | Except.error e :: rest, i => by
      simp [safelyGenerateGo, List.filterMap_cons, Except.toOption, sgGo_fst rest (i + 1)]

theorem sgGo_len {E A : Type} :
    ∀ (ds : List (Except E A)) (i : Nat),
      (safelyGenerateGo ds i).1.length + (safelyGenerateGo ds i).2.length = ds.length
  | [], _ => rfl
  | Except.ok a :: rest, i => by
      simp [safelyGenerateGo]
      have h := sgGo_len rest (i + 1)
      omega
  | Except.error e :: rest, i => by
      simp [safelyGenerateGo]
      have h := sgGo_len rest (i + 1)
      omega

theorem sgGo_snd_all_ok {E A : Type} :
    ∀ (ds : List (Except E A)) (i : Nat),
      (∀ x ∈ ds, x.isOk = true) → (safelyGenerateGo ds i).2 = []
  | [], _, _ => rfl
  | Except.ok a :: rest, i, h => by
      simpa [safelyGenerateGo] using
        sgGo_snd_all_ok rest (i + 1) (fun x hx => h x (List.mem_cons_of_mem _ hx))
  | Except.error e :: rest, i, h => by
      exact absurd (h (Except.error e) (List.mem_cons_self _ _))
        (by simp [Except.isOk, Except.toBool])

theorem sgGo_snd_single {E A : Type} :
    ∀ (ds : List (Except E A)) (i k : Nat) (hk : k < ds.length),
      ¬ (ds.get ⟨k, hk⟩).isOk = true →
      (∀ (j : Nat) (hj : j < ds.length), j ≠ k → (ds.get ⟨j, hj⟩).isOk = true) →
      (safelyGenerateGo ds i).2 = [i + k]
  | [], _, k, hk, _, _ => absurd hk (by simp)
  | Except.ok a :: rest, i, k, hk, herr, hok => by
      match k with
      | 0 => exact absurd rfl herr
      | Nat.succ k' =>
          have hk' : k' < rest.length := by simpa using hk
          have hr := sgGo_snd_single rest (i + 1) k' hk' (by simpa using herr)
            (fun j hj hjk =>
              by simpa using hok (j + 1) (by simpa using hj) (by omega))
          have hstep : (safelyGenerateGo (Except.ok a :: rest) i).2
              = (safelyGenerateGo rest (i + 1)).2 := rfl
          rw [hstep, hr]
          simp only [List.cons.injEq, and_true]
          omega
  | Except.error e :: rest, i, k, hk, herr, hok => by
      have hk0 : k = 0 := by
        by_contra h0
        exact absurd (hok 0 (by simp) (by omega))
          (by simp [Except.isOk, Except.toBool])
      subst hk0
      have hrest : ∀ x ∈ rest, x.isOk = true := by
        intro x hx
        obtain ⟨j, hj, hget⟩ := List.getElem_of_mem hx
        subst hget
        have h1 := hok (j + 1) (by simpa using hj) (by omega)
        simpa using h1
      have hstep : (safelyGenerateGo (Except.error e :: rest) i).2
          = i :: (safelyGenerateGo rest (i + 1)).2 := rfl
      rw [hstep, sgGo_snd_all_ok rest (i + 1) hrest]
      simp

/-- C1: on a dataset iterator whose productions raise a non-StopIteration
exception at exactly one index `k` (out of `n = ds.length` productions) and
succeed everywhere else, `safely_generate` yields exactly the `n - 1`
successfully produced records in their original order, logs exactly one error
carrying the failing record's index `k`, and terminates normally without
propagating the exception (the embedding is a total function returning the
yielded records and the logged indices). -/
theorem safely_generate_single_error {E A : Type} (ds : List (Except E A)) (k : Nat)
    (hk : k < ds.length)
    (herr : ¬ (ds.get ⟨k, hk⟩).isOk = true)
    (hok : ∀ (j : Nat) (hj : j < ds.length), j ≠ k → (ds.get ⟨j, hj⟩).isOk = true) :
    (safely_generate ds).1 = ds.filterMap Except.toOption ∧
    (safely_generate ds).1.length = ds.length - 1 ∧
    (safely_generate ds).2 = [k] := by
  have hsnd : (safely_generate ds).2 = [k] := by
    simpa [safely_generate] using sgGo_snd_single ds 0 k hk herr hok
  refine ⟨sgGo_fst ds 0, ?_, hsnd⟩
  have h1 : (safely_generate ds).1.length + (safely_generate ds).2.length
      = ds.length := sgGo_len ds 0
  have h2 : (safely_generate ds).2.length = 1 := by rw [hsnd]; rfl
  omega

/-- Witness for C1: a three-production iterator whose middle production raises. -/
theorem safely_generate_single_error_witness :
    (safely_generate
        [Except.ok 10, Except.error PyError.otherError, Except.ok (20 : Nat)]).1 =
      [10, 20] ∧
    (safely_generate
        [Except.ok 10, Except.error PyError.otherError, Except.ok (20 : Nat)]).2 =
      [1] := by
  have h := safely_generate_single_error
    [Except.ok 10, Except.error PyError.otherError, Except.ok (20 : Nat)] 1
    (by decide) (by decide) (by decide)
  exact ⟨by rw [h.1]; rfl, h.2.2⟩

/-! ### Lemmas about `group_examples_iter` -/

theorem groupGo_spec {A K : Type} [DecidableEq K] (key : A → K) :
    ∀ (rest : List A) (k : K) (b : List A), b ≠ [] → (∀ a ∈ b, key a = k) →
      ((groupGo key rest k b).map Prod.snd).flatten = b ++ rest ∧
      (∀ p ∈ groupGo key rest k b, p.2 ≠ [] ∧ ∀ a ∈ p.2, key a = p.1) ∧
      List.Chain' (fun p q => p.1 ≠ q.1) (groupGo key rest k b) ∧
      ∃ b' t, groupGo key rest k b = (k, b') :: t
  | [], k, b, hb, hkey => by
      rw [groupGo, if_neg (by simpa using hb)]
      refine ⟨by simp, ?_, by simp, b, [], rfl⟩
      intro p hp
      simp at hp
      subst hp
      exact ⟨hb, hkey⟩
  | x :: rest, k, b, hb, hkey => by
      rw [groupGo]
      by_cases hx : key x = k
      · rw [if_pos hx]
        have ih := groupGo_spec key rest k (b ++ [x]) (by simp)
          (by
            intro a ha
            rcases List.mem_append.mp ha with h | h
            · exact hkey a h
            · simp at h; subst h; exact hx)
        obtain ⟨ihjoin, ihmem, ihchain, ihhead⟩ := ih
        refine ⟨?_, ihmem, ihchain, ihhead⟩
        rw [ihjoin]
        simp
      · rw [if_neg hx, if_neg (by simpa using hb)]
        have ih := groupGo_spec key rest (key x) [x] (by simp) (by simp)
        obtain ⟨ihjoin, ihmem, ihchain, b', t, ihhead⟩ := ih
        refine ⟨?_, ?_, ?_, b, (groupGo key rest (key x) [x]), rfl⟩
        · simp only [List.singleton_append, List.map_cons, List.flatten_cons]
          rw [ihjoin]
          simp
        · intro p hp
          rcases List.mem_cons.mp hp with h | h
          · subst h; exact ⟨hb, hkey⟩
          · exact ihmem p h
        · rw [ihhead] at ihchain ⊢
          exact List.Chain'.cons (by simpa using fun h => hx h.symm) ihchain

/-- C6: `group_examples_iter` decomposes its input into maximal contiguous runs
of equal key: concatenating the yielded batches (in yield order) reproduces the
input sequence exactly, every yielded batch is nonempty and consists solely of
examples whose key equals the yielded key, and adjacent yielded groups carry
distinct keys — so examples with an equal key separated by an example with a
different key land in separate groups, with no global sort or merge. -/
theorem group_examples_iter_spec {A K : Type} [DecidableEq K] (key : A → K)
    (xs : List A) :
    ((group_examples_iter key xs).map Prod.snd).flatten = xs ∧
    (∀ p ∈ group_examples_iter key xs, p.2 ≠ [] ∧ ∀ a ∈ p.2, key a = p.1) ∧
    List.Chain' (fun p q => p.1 ≠ q.1) (group_examples_iter key xs) := by
  match xs with
  | [] => exact ⟨rfl, by simp [group_examples_iter], by simp [group_examples_iter]⟩
  | x :: rest =>
      have h := groupGo_spec key rest (key x) [x] (by simp) (by simp)
      exact ⟨h.1, h.2.1, h.2.2.1⟩

/-- Witness for C6: two runs with the key value 7 separated by a run with key 3
yield three separate groups, and concatenation reproduces the input. -/
theorem group_examples_iter_spec_witness :
    ((group_examples_iter (fun p : Nat × Nat => p.1) [(7, 0), (7, 1), (3, 2), (7, 3)]).map
        Prod.snd).flatten = [(7, 0), (7, 1), (3, 2), (7, 3)] ∧
    group_examples_iter (fun p : Nat × Nat => p.1) [(7, 0), (7, 1), (3, 2), (7, 3)] =
      [(7, [(7, 0), (7, 1)]), (3, [(3, 2)]), (7, [(7, 3)])] := by
  exact ⟨(group_examples_iter_spec (fun p : Nat × Nat => p.1)
    [(7, 0), (7, 1), (3, 2), (7, 3)]).1, by decide⟩

/-! ### Normalization round-trip and centered boxes -/

/-- C2: for image dimensions H > 1 and W > 1, `unnormalize_bboxes` inverts
`normalize_bboxes` exactly: normalization divides y-coordinates by (H - 1) and
x-coordinates by (W - 1) and unnormalization multiplies back by the same
per-axis factors (the arithmetic is exact over `Rat`, matching the claim's
"within floating-point tolerance"). -/
theorem unnormalize_normalize_roundtrip (bboxes : List Box4)
    (image_height image_width : Nat)
    (hH : 1 < image_height) (hW : 1 < image_width) :
    unnormalize_bboxes (normalize_bboxes bboxes image_height image_width)
      image_height image_width = bboxes := by
  have hH' : (image_height : Rat) - 1 ≠ 0 := by
    have : (1 : Rat) < (image_height : Rat) := by exact_mod_cast hH
    intro h
    rw [sub_eq_zero] at h
    exact absurd h.symm (ne_of_lt this)
  have hW' : (image_width : Rat) - 1 ≠ 0 := by
    have : (1 : Rat) < (image_width : Rat) := by exact_mod_cast hW
    intro h
    rw [sub_eq_zero] at h
    exact absurd h.symm (ne_of_lt this)
  unfold unnormalize_bboxes normalize_bboxes
  rw [List.map_map]
  have : ∀ b : Box4,
      (⟨b.y1 / ((image_height : Rat) - 1) * ((image_height : Rat) - 1),
        b.x1 / ((image_width : Rat) - 1) * ((image_width : Rat) - 1),
        b.y2 / ((image_height : Rat) - 1) * ((image_height : Rat) - 1),
        b.x2 / ((image_width : Rat) - 1) * ((image_width : Rat) - 1)⟩ : Box4) = b := by
    intro b
    have e1 := div_mul_cancel₀ b.y1 hH'
    have e2 := div_mul_cancel₀ b.x1 hW'
    have e3 := div_mul_cancel₀ b.y2 hH'
    have e4 := div_mul_cancel₀ b.x2 hW'
    cases b
    simp_all
  calc bboxes.map _ = bboxes.map id := List.map_congr_left (fun b _ => this b)
  _ = bboxes := List.map_id bboxes

/-- Witness for C2: a concrete box round-trips through a 3 x 5 image. -/
theorem unnormalize_normalize_roundtrip_witness :
    unnormalize_bboxes
        (normalize_bboxes [⟨1, 2, 3, 4⟩] 3 5) 3 5 = [⟨1, 2, 3, 4⟩] :=
  unnormalize_normalize_roundtrip [⟨1, 2, 3, 4⟩] 3 5 (by decide) (by decide)

/-- C3: for every centroid (x, y) and positive box_height and box_width
(odd or even), `make_centered_bboxes` returns the box
(y1, x1, y2, x2) = (y - (h-1)/2, x - (w-1)/2, y + (h-1)/2, x + (w-1)/2); hence
every returned box satisfies y2 - y1 + 1 = box_height and
x2 - x1 + 1 = box_width exactly. -/
theorem make_centered_bboxes_spec (centroids : List (Rat × Rat))
    (box_height box_width : Nat)
    (hh : 0 < box_height) (hw : 0 < box_width) :
    make_centered_bboxes centroids box_height box_width
      = centroids.map (fun c =>
          { y1 := c.2 - ((box_height : Rat) - 1) / 2
            x1 := c.1 - ((box_width : Rat) - 1) / 2
            y2 := c.2 + ((box_height : Rat) - 1) / 2
            x2 := c.1 + ((box_width : Rat) - 1) / 2 }) ∧
    ∀ b ∈ make_centered_bboxes centroids box_height box_width,
      b.y2 - b.y1 + 1 = (box_height : Rat) ∧ b.x2 - b.x1 + 1 = (box_width : Rat) := by
  constructor
  · unfold make_centered_bboxes
    refine List.map_congr_left (fun c _ => ?_)
    refine Box4.mk.injEq .. ▸ ?_
    refine ⟨by ring, by ring, by ring, by ring⟩
  · intro b hb
    obtain ⟨c, _, rfl⟩ := List.mem_map.mp hb
    constructor
    · ring
    · ring

/-- Witness for C3: the docstring example — centroid (x, y) = (2, 0) with a
1 x 3 box yields (y1, x1, y2, x2) = (0, 1, 0, 3), of height 1 and width 3. -/
theorem make_centered_bboxes_spec_witness :
    make_centered_bboxes [((2 : Rat), (0 : Rat))] 1 3 = [⟨0, 1, 0, 3⟩] ∧
    (0 : Rat) - 0 + 1 = 1 ∧ (3 : Rat) - 1 + 1 = 3 := by
  have h := make_centered_bboxes_spec [((2 : Rat), (0 : Rat))] 1 3
    (by decide) (by decide)
  refine ⟨?_, by norm_num, by norm_num⟩
  rw [h.1]
  norm_num

/-! ### `find_instance_crop_size` theorems -/

theorem foldl_max_max {α : Type} (f g : α → Rat) :
    ∀ (l : List α) (a : Rat),
      l.foldl (fun acc x => max (max acc (f x)) (g x)) a
        = l.foldl (fun acc x => max acc (max (f x) (g x))) a
  | [], _ => rfl
  | x :: xs, a => by
      simp only [List.foldl_cons]
      rw [max_assoc]
      exact foldl_max_max f g xs _

/-- C9: every call of `find_instance_crop_size` raises `NameError` regardless
of its arguments — the body references the name `np`, which is not among the
names bound at module level in instance_cropping.py (numpy is never imported),
so the function can never return a crop size. -/
theorem find_instance_crop_size_raises_nameError (labels : Labels)
    (padding maximum_stride : Nat) :
    find_instance_crop_size labels padding maximum_stride
      = Except.error (PyError.nameError "np") := by
  unfold find_instance_crop_size
  rw [if_neg]
  decide

/-- Counterexample for C4: for the label set with one instance whose points are
(0, 0) and (3, 2) (so the maximal extent is L = 3), padding 1 and stride 2, the
claim predicts the return value ceil(3 / 2) * 2 + 1 = 5; instead the call
raises `NameError` (it returns no value at all), and even the computation the
body was intended to perform yields ceil((3 + 1) / 2) * 2 = 4 ≠ 5. -/
theorem find_instance_crop_size_claim_counterexample :
    find_instance_crop_size ⟨[⟨[(0, 0), (3, 2)]⟩]⟩ 1 2
        = Except.error (PyError.nameError "np") ∧
    (∀ v : Int, find_instance_crop_size ⟨[⟨[(0, 0), (3, 2)]⟩]⟩ 1 2 ≠ Except.ok v) ∧
    find_instance_crop_size_body ⟨[⟨[(0, 0), (3, 2)]⟩]⟩ 1 2 = 4 ∧
    (4 : Int) ≠ Int.ceil ((3 : Rat) / 2) * 2 + 1 := by
  have hceil : Int.ceil ((3 : Rat) / 2) = 2 := by
    rw [Int.ceil_eq_iff] <;> norm_num
  refine ⟨by rfl, ?_, ?_, by rw [hceil]; norm_num⟩
  · intro v h
    rw [show find_instance_crop_size ⟨[⟨[(0, 0), (3, 2)]⟩]⟩ 1 2
        = Except.error (PyError.nameError "np") from rfl] at h
    exact Except.noConfusion h
  · unfold find_instance_crop_size_body
    norm_num [nanmax, nanmin, max_def, min_def]

/-- C4 (amended): every call of `find_instance_crop_size` raises `NameError`
(numpy is never imported by its module); the computation its body was written
to perform returns ceil((L + padding) / stride) * stride, where L is the
maximal instance extent — the padding is added to the extent *before* rounding
up to a multiple of the stride, not after. -/
theorem find_instance_crop_size_amended (labels : Labels)
    (padding maximum_stride : Nat) (hs : 0 < maximum_stride)
    (hpts : ∀ inst ∈ labels.user_instances, inst.points_array ≠ []) :
    find_instance_crop_size labels padding maximum_stride
        = Except.error (PyError.nameError "np") ∧
    find_instance_crop_size_body labels padding maximum_stride
        = Int.ceil ((maxInstanceExtent labels + (padding : Rat))
            / (maximum_stride : Rat)) * (maximum_stride : Int) := by
  constructor
  · unfold find_instance_crop_size
    rw [if_neg]
    decide
  · simp only [find_instance_crop_size_body, maxInstanceExtent, List.foldl_map]
    rw [foldl_max_max
      (fun inst : SleapInstance =>
        nanmax (inst.points_array.map Prod.fst)
          - nanmin (inst.points_array.map Prod.fst))
      (fun inst : SleapInstance =>
        nanmax (inst.points_array.map Prod.snd)
          - nanmin (inst.points_array.map Prod.snd))
      labels.user_instances 0]

/-- Witness for C4 (amended): one instance spanning (0,0)-(3,2), padding 1,
stride 2: the call errors with `NameError` and the intended body computes
ceil((3 + 1) / 2) * 2 = 4. -/
theorem find_instance_crop_size_amended_witness :
    find_instance_crop_size ⟨[⟨[(0, 0), (3, 2)]⟩]⟩ 1 2
        = Except.error (PyError.nameError "np") ∧
    find_instance_crop_size_body ⟨[⟨[(0, 0), (3, 2)]⟩]⟩ 1 2
        = Int.ceil ((maxInstanceExtent ⟨[⟨[(0, 0), (3, 2)]⟩]⟩ + (1 : Rat)) / (2 : Rat))
            * (2 : Int) :=
  find_instance_crop_size_amended ⟨[⟨[(0, 0), (3, 2)]⟩]⟩ 1 2 (by decide)
    (by
      intro inst hinst
      simp only [List.mem_singleton] at hinst
      subst hinst
      decide)

/-! ### `crop_bboxes` lemmas -/

theorem roundHalfEven_natCast (n : Nat) : roundHalfEven ((n : Nat) : Rat) = n := by
  unfold roundHalfEven
  rw [Int.floor_natCast]
  simp

theorem take3_eq {α : Type} (d : α) (l : List α) (h : 3 ≤ l.length) :
    l.take 3 = [l.getD 0 d, l.getD 1 d, l.getD 2 d] := by
  match l with
  | [] => simp at h
  | [_] => simp at h
  | [_, _] => simp at h
  | a :: b :: c :: rest => simp [List.getD]

theorem bilinearSample_natCast (rows : List (List Rat)) (H W : Nat) (i j : Nat)
    (hi : i < H) (hj : j < W) :
    bilinearSample rows H W ((i : Nat) : Rat) ((j : Nat) : Rat) = pixel rows i j := by
  have hiH : ((i : Nat) : Rat) ≤ (H : Rat) - 1 := by
    have : ((i : Nat) : Rat) + 1 ≤ (H : Rat) := by exact_mod_cast hi
    linarith
  have hjW : ((j : Nat) : Rat) ≤ (W : Rat) - 1 := by
    have : ((j : Nat) : Rat) + 1 ≤ (W : Rat) := by exact_mod_cast hj
    linarith
  unfold bilinearSample
  rw [if_neg]
  · simp only [Int.floor_natCast, Int.ceil_natCast, Int.toNat_natCast]
    push_cast
    ring
  · push_neg
    refine ⟨by positivity, hiH, by positivity, hjW⟩

/-- C10: `crop_bboxes` takes the crop height and width from the FIRST box of
the batch only — round(y2 - y1 + 1) and round(x2 - x1 + 1) of box 0, with
`tf.math.round`'s half-to-even rounding. A batch of boxes with differing
extents raises no error (the embedding is total on nonempty batches): one crop
per box is produced, and every crop has the first box's size, the differing
boxes being silently resampled to that size. -/
theorem crop_bboxes_first_box_size (image : ImageT) (b0 : Box4) (rest : List Box4) :
    (crop_bboxes image (b0 :: rest)).crops.length = rest.length + 1 ∧
    (crop_bboxes image (b0 :: rest)).crops.map List.length
      = List.replicate (rest.length + 1) (roundHalfEven (b0.y2 - b0.y1 + 1)).toNat ∧
    (crop_bboxes image (b0 :: rest)).crops.map (fun c => c.map List.length)
      = List.replicate (rest.length + 1)
          (List.replicate (roundHalfEven (b0.y2 - b0.y1 + 1)).toNat
            (roundHalfEven (b0.x2 - b0.x1 + 1)).toNat) := by
  unfold crop_bboxes crop_and_resize normalize_bboxes
  simp [List.map_map, Function.comp_def, List.map_const', List.replicate_succ]

theorem roundHalfEven_three : roundHalfEven ((2 : Rat) - 0 + 1) = 3 := by
  rw [show ((2 : Rat) - 0 + 1) = ((3 : Nat) : Rat) by norm_num]
  exact roundHalfEven_natCast 3

theorem crop_bboxes_head_length (image : ImageT) (b0 : Box4) (rest : List Box4) :
    ((crop_bboxes image (b0 :: rest)).crops.headD []).length
      = (roundHalfEven (b0.y2 - b0.y1 + 1)).toNat := by
  unfold crop_bboxes crop_and_resize normalize_bboxes
  simp

theorem crop_and_resize_022 (rows : List (List Rat)) (H W : Nat)
    (hH : 3 ≤ H) (hW : 3 ≤ W) :
    crop_and_resize rows H W (normalize_bboxes [⟨0, 0, 2, 2⟩] H W) 3 3
      = [(List.range 3).map (fun i => (List.range 3).map (fun j =>
          pixel rows i j))] := by
  have hH1 : ((H : Rat) - 1) ≠ 0 := by
    have h3 : (3 : Rat) ≤ (H : Rat) := by exact_mod_cast hH
    intro h
    rw [sub_eq_zero] at h
    rw [h] at h3
    norm_num at h3
  have hW1 : ((W : Rat) - 1) ≠ 0 := by
    have h3 : (3 : Rat) ≤ (W : Rat) := by exact_mod_cast hW
    intro h
    rw [sub_eq_zero] at h
    rw [h] at h3
    norm_num at h3
  unfold crop_and_resize normalize_bboxes
  simp only [List.map_cons, List.map_nil]
  congr 1
  refine List.map_congr_left (fun i hi => ?_)
  refine List.map_congr_left (fun j hj => ?_)
  have hi3 : i < 3 := List.mem_range.mp hi
  have hj3 : j < 3 := List.mem_range.mp hj
  have hyi : ((0 : Rat) / ((H : Rat) - 1)) * ((H : Rat) - 1)
      + (i : Rat) * (((2 : Rat) / ((H : Rat) - 1) - (0 : Rat) / ((H : Rat) - 1))
          * ((H : Rat) - 1)) / (((3 : Nat) : Rat) - 1)
      = ((i : Nat) : Rat) := by
    field_simp
    left
    norm_num
  have hxj : ((0 : Rat) / ((W : Rat) - 1)) * ((W : Rat) - 1)
      + (j : Rat) * (((2 : Rat) / ((W : Rat) - 1) - (0 : Rat) / ((W : Rat) - 1))
          * ((W : Rat) - 1)) / (((3 : Nat) : Rat) - 1)
      = ((j : Nat) : Rat) := by
    field_simp
    left
    norm_num
  rw [if_pos (by norm_num), if_pos (by norm_num), hyi, hxj]
  exact bilinearSample_natCast rows H W i j (by omega) (by omega)

/-- Counterexample for C7: on the 2 x 2 image [[1,2],[3,4]] the box
(0, 0, 2, 2) yields a 3 x 3 crop (rows beyond the image filled with the
extrapolation value), while the direct pixel slice `image[0:3, 0:3]` clips to
the 2 x 2 image — the two differ, so the slice identity does not hold for
every image tensor. -/
theorem crop_bboxes_slice_counterexample :
    (crop_bboxes ⟨[[1, 2], [3, 4]], DType.float32⟩ [⟨0, 0, 2, 2⟩]).crops
        ≠ [((⟨[[1, 2], [3, 4]], DType.float32⟩ : ImageT).rows.take 3).map
            (fun r => r.take 3)] ∧
    ((crop_bboxes ⟨[[1, 2], [3, 4]], DType.float32⟩ [⟨0, 0, 2, 2⟩]).crops.headD
        []).length = 3 ∧
    (((⟨[[1, 2], [3, 4]], DType.float32⟩ : ImageT).rows.take 3).map
        (fun r => r.take 3)).length = 2 := by
  have hlen : ((crop_bboxes ⟨[[1, 2], [3, 4]], DType.float32⟩
      [⟨0, 0, 2, 2⟩]).crops.headD []).length = 3 := by
    rw [crop_bboxes_head_length]
    show (roundHalfEven ((2 : Rat) - 0 + 1)).toNat = 3
    rw [roundHalfEven_three]
    rfl
  refine ⟨?_, hlen, rfl⟩
  intro hEq
  rw [hEq] at hlen
  simp at hlen

/-- C7 (amended): for every image tensor of height >= 3 and width >= 3 (with
rectangular rows and pixel values representable in the image dtype),
`crop_bboxes` with the single box (y1, x1, y2, x2) = (0, 0, 2, 2) returns
exactly the direct pixel slice `image[0:3, 0:3]`; and for every input image
and box batch the returned crop tensor has the same dtype as the input image
(cast back after bilinear resampling). -/
theorem crop_bboxes_slice_amended (image : ImageT)
    (hH : 3 ≤ image.height) (hW : 3 ≤ image.width)
    (hrect : ∀ r ∈ image.rows, r.length = image.width)
    (hval : ∀ r ∈ image.rows, ∀ v ∈ r, image.dtype.castValue v = v) :
    (crop_bboxes image [⟨0, 0, 2, 2⟩]).crops
        = [(image.rows.take 3).map (fun r => r.take 3)] ∧
    ∀ (img : ImageT) (bbs : List Box4), (crop_bboxes img bbs).dtype = img.dtype := by
  refine ⟨?_, fun img bbs => rfl⟩
  have hH' : 3 ≤ image.rows.length := hH
  have hpix : ∀ i j : Nat, i < 3 → j < 3 →
      image.dtype.castValue (pixel image.rows i j) = pixel image.rows i j := by
    intro i j hi hj
    have hiH : i < image.rows.length := lt_of_lt_of_le hi hH'
    have hrow : image.rows.getD i [] ∈ image.rows := by
      rw [List.getD_eq_getElem _ _ hiH]
      exact List.getElem_mem _
    have hjr : j < (image.rows.getD i []).length := by
      rw [hrect _ hrow]
      exact lt_of_lt_of_le hj hW
    have hv : (image.rows.getD i []).getD j 0 ∈ image.rows.getD i [] := by
      rw [List.getD_eq_getElem _ _ hjr]
      exact List.getElem_mem _
    exact hval _ hrow _ hv
  have hrowlen : ∀ k : Nat, k < 3 → 3 ≤ (image.rows.getD k []).length := by
    intro k hk
    have hkH : k < image.rows.length := lt_of_lt_of_le hk hH'
    have hrow : image.rows.getD k [] ∈ image.rows := by
      rw [List.getD_eq_getElem _ _ hkH]
      exact List.getElem_mem _
    rw [hrect _ hrow]
    exact hW
  have hslice : (image.rows.take 3).map (fun r => r.take 3)
      = [[pixel image.rows 0 0, pixel image.rows 0 1, pixel image.rows 0 2],
         [pixel image.rows 1 0, pixel image.rows 1 1, pixel image.rows 1 2],
         [pixel image.rows 2 0, pixel image.rows 2 1, pixel image.rows 2 2]] := by
    rw [take3_eq [] image.rows hH']
    simp only [List.map_cons, List.map_nil]
    rw [take3_eq (0 : Rat) _ (hrowlen 0 (by norm_num)),
      take3_eq (0 : Rat) _ (hrowlen 1 (by norm_num)),
      take3_eq (0 : Rat) _ (hrowlen 2 (by norm_num))]
    rfl
  have hcast : ((List.range 3).map (fun i => (List.range 3).map (fun j =>
        pixel image.rows i j))).map (fun r => r.map image.dtype.castValue)
      = (List.range 3).map (fun i => (List.range 3).map (fun j =>
          pixel image.rows i j)) := by
    rw [List.map_map]
    refine List.map_congr_left (fun i hi => ?_)
    simp only [Function.comp_apply]
    rw [List.map_map]
    refine List.map_congr_left (fun j hj => ?_)
    exact hpix i j (List.mem_range.mp hi) (List.mem_range.mp hj)
  show (crop_and_resize image.rows image.height image.width
      (normalize_bboxes [⟨0, 0, 2, 2⟩] image.height image.width)
      (roundHalfEven ((2 : Rat) - 0 + 1)).toNat
      (roundHalfEven ((2 : Rat) - 0 + 1)).toNat).map
      (fun c => c.map fun r => r.map image.dtype.castValue)
    = [(image.rows.take 3).map (fun r => r.take 3)]
  rw [show (roundHalfEven ((2 : Rat) - 0 + 1)).toNat = 3 by
      rw [roundHalfEven_three]
      rfl]
  rw [crop_and_resize_022 image.rows image.height image.width hH hW]
  simp only [List.map_cons, List.map_nil]
  rw [hcast, hslice]
  rfl

/-- Witness for C7 (amended): the 3 x 3 float32 image [[1,2,3],[4,5,6],[7,8,9]]
cropped at (0, 0, 2, 2) equals its own [0:3, 0:3] slice. -/
theorem crop_bboxes_slice_amended_witness :
    (crop_bboxes ⟨[[1, 2, 3], [4, 5, 6], [7, 8, 9]], DType.float32⟩
        [⟨0, 0, 2, 2⟩]).crops
      = [((⟨[[1, 2, 3], [4, 5, 6], [7, 8, 9]], DType.float32⟩ : ImageT).rows.take
          3).map (fun r => r.take 3)] :=
  (crop_bboxes_slice_amended ⟨[[1, 2, 3], [4, 5, 6], [7, 8, 9]], DType.float32⟩
    (by decide) (by decide) (by decide) (fun r _ v _ => rfl)).1

/-! ### `InstanceCropper.transform_dataset` theorems -/

/-- C5: on a dataset whose frame example carries n >= 1 instances and
centroids, `InstanceCropper.transform_dataset` emits exactly n instance-level
output examples, and every key of the input example other than the declared
input keys "image", "instances", "centroids" is replicated unchanged onto each
of the n output examples. -/
theorem transform_dataset_fanout {V : Type} (ic : InstanceCropper)
    (f : FrameExample V) (n : Nat) (hn : 0 < n)
    (hc : f.centroids.length = n) (hi : f.instances.length = n)
    (hkeys : ∀ kv ∈ f.extras, InstanceCropper.input_keys.contains kv.1 = false) :
    ∃ outs, ic.transform_dataset [f] = some outs ∧ outs.length = n ∧
      ∀ e ∈ outs, e.extras = f.extras := by
  refine ⟨[f].flatMap (cropInstances ic ((f.extras.map Prod.fst).filter
    fun k => ! InstanceCropper.input_keys.contains k)), rfl, ?_, ?_⟩
  · show ((cropInstances ic _ f) ++ []).length = n
    rw [List.append_nil]
    unfold cropInstances make_centered_bboxes
    simp [hc]
  · intro e he
    rw [List.flatMap_cons, List.flatMap_nil, List.append_nil] at he
    unfold cropInstances at he
    obtain ⟨i, hiRange, rfl⟩ := List.mem_map.mp he
    show f.extras.filter _ = f.extras
    rw [List.filter_eq_self]
    intro kv hkv
    have h1 : kv.1 ∈ (f.extras.map Prod.fst).filter
        (fun k => ! InstanceCropper.input_keys.contains k) := by
      rw [List.mem_filter]
      exact ⟨List.mem_map_of_mem _ hkv, by rw [hkeys kv hkv]; rfl⟩
    exact List.elem_eq_true_of_mem h1

/-- Witness for C5: a frame with three instances and centroids plus one extra
key ("frame_meta", 42) yields exactly three outputs, each carrying the extra
key unchanged. -/
theorem transform_dataset_fanout_witness :
    ∃ outs, InstanceCropper.transform_dataset ⟨2, 2, false⟩
        [⟨⟨[[1, 2, 3], [4, 5, 6], [7, 8, 9]], DType.float32⟩,
          [[(0, 0)], [(1, 1)], [(2, 2)]],
          [(0, 0), (1, 1), (2, 2)],
          [("frame_meta", (42 : Nat))]⟩] = some outs ∧
      outs.length = 3 ∧
      ∀ e ∈ outs, e.extras = [("frame_meta", (42 : Nat))] :=
  transform_dataset_fanout ⟨2, 2, false⟩
    ⟨⟨[[1, 2, 3], [4, 5, 6], [7, 8, 9]], DType.float32⟩,
      [[(0, 0)], [(1, 1)], [(2, 2)]],
      [(0, 0), (1, 1), (2, 2)],
      [("frame_meta", (42 : Nat))]⟩ 3
    (by decide) (by decide) (by decide)
    (by
      intro kv hkv
      simp only [List.mem_singleton] at hkv
      subst hkv
      decide)

/-! ### `make_predictor_from_cli` theorems -/

theorem dictContains_iff (d : List (String × String)) (k : String) :
    dictContains d k = true ↔ k ∈ d.map Prod.fst := by
  unfold dictContains
  rw [List.any_eq_true]
  constructor
  · rintro ⟨kv, hkv, hbeq⟩
    have : kv.1 = k := by simpa using hbeq
    exact this ▸ List.mem_map_of_mem _ hkv
  · intro hk
    obtain ⟨kv, hkv, hfst⟩ := List.mem_map.mp hk
    exact ⟨kv, hkv, by simp [hfst]⟩

theorem mem_dictInsert_keys (d : List (String × String)) (a b k : String) :
    k ∈ (dictInsert d a b).map Prod.fst ↔ k ∈ d.map Prod.fst ∨ k = a := by
  unfold dictInsert
  by_cases h : d.any (fun kv => kv.1 == a)
  · rw [if_pos h, List.map_map]
    have hmap : d.map (Prod.fst ∘ fun kv => if kv.1 == a then (a, b) else kv)
        = d.map Prod.fst := by
      refine List.map_congr_left (fun kv _ => ?_)
      by_cases hk : kv.1 == a
      · have : kv.1 = a := by simpa using hk
        simp [hk, this]
      · have hne : kv.1 ≠ a := by simpa using hk
        simp [hk, hne]
    rw [hmap]
    constructor
    · exact Or.inl
    · rintro (hk | rfl)
      · exact hk
      · obtain ⟨kv, hkv, hbeq⟩ := List.any_eq_true.mp h
        have : kv.1 = k := by simpa using hbeq
        exact this ▸ List.mem_map_of_mem _ hkv
  · rw [if_neg h, List.map_append]
    simp

theorem trained_keys_mem (k : String) :
    ∀ (models : List (String × String)) (dInit : List (String × String)),
      k ∈ ((models.foldl (fun d kv => dictInsert d kv.1 kv.2) dInit).map Prod.fst)
        ↔ k ∈ dInit.map Prod.fst ∨ k ∈ models.map Prod.fst
  | [], dInit => by simp
  | kv :: rest, dInit => by
      rw [List.foldl_cons, trained_keys_mem k rest, mem_dictInsert_keys]
      simp only [List.map_cons, List.mem_cons]
      tauto

/-- C8: `make_predictor_from_cli` raises `ValueError` exactly when the head
names loaded from the --model paths contain neither "multi_instance", nor
"single_instance", nor both of "centroid" and "centered_instance"; otherwise
it constructs a predictor, choosing `BottomupPredictor` when "multi_instance"
is present, else `SingleInstancePredictor` when "single_instance" is present,
else `TopdownPredictor` from the "centroid" and "centered_instance" models. -/
theorem make_predictor_from_cli_spec (models : List (String × String)) :
    ((∃ ks, make_predictor_from_cli models
        = Except.error (PyError.valueError ks)) ↔
      ¬ ("multi_instance" ∈ models.map Prod.fst ∨
         "single_instance" ∈ models.map Prod.fst ∨
         ("centroid" ∈ models.map Prod.fst ∧
          "centered_instance" ∈ models.map Prod.fst))) ∧
    ("multi_instance" ∈ models.map Prod.fst →
      ∃ p, make_predictor_from_cli models = Except.ok (Predictor.bottomup p)) ∧
    ("multi_instance" ∉ models.map Prod.fst →
      "single_instance" ∈ models.map Prod.fst →
      ∃ p, make_predictor_from_cli models
        = Except.ok (Predictor.single_instance p)) ∧
    ("multi_instance" ∉ models.map Prod.fst →
      "single_instance" ∉ models.map Prod.fst →
      "centroid" ∈ models.map Prod.fst →
      "centered_instance" ∈ models.map Prod.fst →
      ∃ c p, make_predictor_from_cli models
        = Except.ok (Predictor.topdown c p)) := by
  have hmem : ∀ key, dictContains
      (models.foldl (fun d kv => dictInsert d kv.1 kv.2) []) key = true
      ↔ key ∈ models.map Prod.fst := by
    intro key
    rw [dictContains_iff]
    simpa using trained_keys_mem key models []
  by_cases h1 : "multi_instance" ∈ models.map Prod.fst
  · have hval : make_predictor_from_cli models
        = Except.ok (Predictor.bottomup (dictGet
            (models.foldl (fun d kv => dictInsert d kv.1 kv.2) [])
            "multi_instance")) := by
      simp only [make_predictor_from_cli]
      rw [if_pos ((hmem _).mpr h1)]
    refine ⟨?_, fun _ => ⟨_, hval⟩,
      fun hmult _ => absurd h1 hmult, fun hmult _ _ _ => absurd h1 hmult⟩
    constructor
    · rintro ⟨ks, hks⟩
      rw [hval] at hks
      exact Except.noConfusion hks
    · intro hno
      exact absurd (Or.inl h1) hno
  · by_cases h2 : "single_instance" ∈ models.map Prod.fst
    · have hval : make_predictor_from_cli models
          = Except.ok (Predictor.single_instance (dictGet
              (models.foldl (fun d kv => dictInsert d kv.1 kv.2) [])
              "single_instance")) := by
        simp only [make_predictor_from_cli]
        rw [if_neg (fun hc => h1 ((hmem _).mp hc)), if_pos ((hmem _).mpr h2)]
      refine ⟨?_, fun hm => absurd hm h1, fun _ _ => ⟨_, hval⟩,
        fun _ hs _ _ => absurd h2 hs⟩
      constructor
      · rintro ⟨ks, hks⟩
        rw [hval] at hks
        exact Except.noConfusion hks
      · intro hno
        exact absurd (Or.inr (Or.inl h2)) hno
    · by_cases h3 : "centroid" ∈ models.map Prod.fst
          ∧ "centered_instance" ∈ models.map Prod.fst
      · have hval : make_predictor_from_cli models
            = Except.ok (Predictor.topdown
                (dictGet (models.foldl (fun d kv => dictInsert d kv.1 kv.2) [])
                  "centroid")
                (dictGet (models.foldl (fun d kv => dictInsert d kv.1 kv.2) [])
                  "centered_instance")) := by
          simp only [make_predictor_from_cli]
          rw [if_neg (fun hc => h1 ((hmem _).mp hc)),
            if_neg (fun hc => h2 ((hmem _).mp hc)),
            if_pos (by
              rw [Bool.and_eq_true]
              exact ⟨(hmem _).mpr h3.1, (hmem _).mpr h3.2⟩)]
        refine ⟨?_, fun hm => absurd hm h1, fun _ hs => absurd hs h2,
          fun _ _ hc hce => ⟨_, _, hval⟩⟩
        constructor
        · rintro ⟨ks, hks⟩
          rw [hval] at hks
          exact Except.noConfusion hks
        · intro hno
          exact absurd (Or.inr (Or.inr h3)) hno
      · have hval : make_predictor_from_cli models
            = Except.error (PyError.valueError
                ((models.foldl (fun d kv => dictInsert d kv.1 kv.2) []).map
                  Prod.fst)) := by
          simp only [make_predictor_from_cli]
          rw [if_neg (fun hc => h1 ((hmem _).mp hc)),
            if_neg (fun hc => h2 ((hmem _).mp hc)),
            if_neg (fun hc => h3 (by
              rw [Bool.and_eq_true] at hc
              exact ⟨(hmem _).mp hc.1, (hmem _).mp hc.2⟩))]
        refine ⟨?_, fun hm => absurd hm h1, fun _ hs => absurd hs h2,
          fun _ _ hc hce => absurd ⟨hc, hce⟩ h3⟩
        constructor
        · rintro _
          rintro (hm | hs | hcc)
          · exact h1 hm
          · exact h2 hs
          · exact h3 hcc
        · intro _
          exact ⟨_, hval⟩

/-- Witness for C8: a centroid model plus a centered-instance model yield a
topdown predictor. -/
theorem make_predictor_from_cli_spec_witness :
    ∃ c p, make_predictor_from_cli [("centroid", "m1"), ("centered_instance", "m2")]
      = Except.ok (Predictor.topdown c p) :=
  (make_predictor_from_cli_spec
      [("centroid", "m1"), ("centered_instance", "m2")]).2.2.2
    (by decide) (by decide) (by decide) (by decide)

end Sleap
